import Mathlib

/-!
Verification of the Polars-backed CSV parser wrapper
(`pandas/io/parsers/polar_parser_wrapper.py`).

The development shallowly embeds the two components of the wrapper:

* the option translator `_translate_kwargs`, mapping a generic
  pandas-style options record to a Polars options record or raising;
* the result normalizer `_finalize_pandas_output`, mapping the raw
  backend frame and the parser state to the final frame;
* the `read` / `_read_csv_with_polars` entry points that wire the two
  around the external backend capability.

Python dictionaries are embedded as insertion-ordered association
lists, Python scalar values as the inductive `Val`, and exceptions as
an `Except` error channel carrying the exception kind and message.
-/

namespace Polars

/-- Embedded Python values that flow through the options records and
frames: `None`, integers, strings, booleans, lists, and opaque callables
(identified by a tag, since only their callability is ever observed). -/
inductive Val where
  | vnone
  | vint (n : Int)
  | vstr (s : String)
  | vbool (b : Bool)
  | vlist (xs : List Val)
  | vcallable (id : Nat)
deriving Repr

mutual

/-- Decides equality of embedded values (the nested `vlist` constructor
prevents automatic derivation). -/
def Val.deq : (a b : Val) → Decidable (a = b)
  | .vnone, .vnone => .isTrue rfl
  | .vnone, .vint _ => .isFalse nofun
  | .vnone, .vstr _ => .isFalse nofun
  | .vnone, .vbool _ => .isFalse nofun
  | .vnone, .vlist _ => .isFalse nofun
  | .vnone, .vcallable _ => .isFalse nofun
  | .vint _, .vnone => .isFalse nofun
  | .vint n, .vint m =>
      match decEq n m with
      | .isTrue h => .isTrue (h ▸ rfl)
      | .isFalse h => .isFalse (fun he => h (Val.vint.inj he))
  | .vint _, .vstr _ => .isFalse nofun
  | .vint _, .vbool _ => .isFalse nofun
  | .vint _, .vlist _ => .isFalse nofun
  | .vint _, .vcallable _ => .isFalse nofun
  | .vstr _, .vnone => .isFalse nofun
  | .vstr _, .vint _ => .isFalse nofun
  | .vstr s, .vstr t =>
      match decEq s t with
      | .isTrue h => .isTrue (h ▸ rfl)
      | .isFalse h => .isFalse (fun he => h (Val.vstr.inj he))
  | .vstr _, .vbool _ => .isFalse nofun
  | .vstr _, .vlist _ => .isFalse nofun
  | .vstr _, .vcallable _ => .isFalse nofun
  | .vbool _, .vnone => .isFalse nofun
  | .vbool _, .vint _ => .isFalse nofun
  | .vbool _, .vstr _ => .isFalse nofun
  | .vbool a, .vbool b =>
      match decEq a b with
      | .isTrue h => .isTrue (h ▸ rfl)
      | .isFalse h => .isFalse (fun he => h (Val.vbool.inj he))
  | .vbool _, .vlist _ => .isFalse nofun
  | .vbool _, .vcallable _ => .isFalse nofun
  | .vlist _, .vnone => .isFalse nofun
  | .vlist _, .vint _ => .isFalse nofun
  | .vlist _, .vstr _ => .isFalse nofun
  | .vlist _, .vbool _ => .isFalse nofun
  | .vlist xs, .vlist ys =>
      match Val.deqList xs ys with
      | .isTrue h => .isTrue (h ▸ rfl)
      | .isFalse h => .isFalse (fun he => h (Val.vlist.inj he))
  | .vlist _, .vcallable _ => .isFalse nofun
  | .vcallable _, .vnone => .isFalse nofun
  | .vcallable _, .vint _ => .isFalse nofun
  | .vcallable _, .vstr _ => .isFalse nofun
  | .vcallable _, .vbool _ => .isFalse nofun
  | .vcallable _, .vlist _ => .isFalse nofun
  | .vcallable i, .vcallable j =>
      match decEq i j with
      | .isTrue h => .isTrue (h ▸ rfl)
      | .isFalse h => .isFalse (fun he => h (Val.vcallable.inj he))

/-- Decides equality of lists of embedded values. -/
def Val.deqList : (xs ys : List Val) → Decidable (xs = ys)
  | [], [] => .isTrue rfl
  | [], _ :: _ => .isFalse nofun
  | _ :: _, [] => .isFalse nofun
  | x :: xs, y :: ys =>
      match Val.deq x y, Val.deqList xs ys with
      | .isTrue h1, .isTrue h2 => .isTrue (h1 ▸ h2 ▸ rfl)
      | .isFalse h1, _ => .isFalse (fun he => h1 (List.cons.inj he).1)
      | _, .isFalse h2 => .isFalse (fun he => h2 (List.cons.inj he).2)

end

instance : DecidableEq Val := Val.deq

mutual

/-- Embeds Python `repr` on the values the wrapper can mention in an
error message (`repr` of a string quotes it). -/
def pyRepr : Val → String
  | .vnone => "None"
  | .vint n => toString n
  | .vstr s => "\x27" ++ s ++ "\x27"
  | .vbool true => "True"
  | .vbool false => "False"
  | .vlist xs => "[" ++ String.intercalate ", " (pyReprList xs) ++ "]"
  | .vcallable i => "<function " ++ toString i ++ ">"

/-- Maps `pyRepr` over a list of values. -/
def pyReprList : List Val → List String
  | [] => []
  | x :: xs => pyRepr x :: pyReprList xs

end

/-- Embeds Python `str`: identical to `repr` except on strings, which
are rendered unquoted (as in an f-string interpolation). -/
def pyStr : Val → String
  | .vstr s => s
  | v => pyRepr v

/-- Embedded Python `dict` with string keys: an insertion-ordered
association list, as produced by the caller for `read_csv` kwargs. -/
structure Dict where
  entries : List (String × Val)
deriving Repr, DecidableEq

/-- First-match lookup in an entry list. -/
def getEntries : List (String × Val) → String → Option Val
  | [], _ => none
  | (k, v) :: rest, key => if k = key then some v else getEntries rest key

/-- Looks a key up (`d[k]` / `d.get(k)` distinguishing absence): first
matching entry, `none` when the key is absent. -/
def Dict.get (d : Dict) (key : String) : Option Val :=
  getEntries d.entries key

/-- Embeds Python `d.get(k, dflt)`: the stored value when the key is
present (even if that value is `None`), the default otherwise. -/
def Dict.getD (d : Dict) (key : String) (dflt : Val) : Val :=
  (d.get key).getD dflt

/-- Embeds Python `k in d`. -/
def Dict.member (d : Dict) (key : String) : Bool :=
  (d.get key).isSome

/-- Updates the first entry for a key in place, or appends a fresh
entry (insertion order preserved). -/
def setEntries : List (String × Val) → String → Val → List (String × Val)
  | [], key, v => [(key, v)]
  | (k, w) :: rest, key, v =>
      if k = key then (k, v) :: rest else (k, w) :: setEntries rest key v

/-- Embeds Python `d[k] = v`. -/
def Dict.set (d : Dict) (key : String) (v : Val) : Dict :=
  ⟨setEntries d.entries key v⟩

/-- Exceptions observable from the wrapper, tagged by Python kind.
`unsupportedOption` embeds `NotImplementedError`, the kind the
translator raises for options Polars cannot honor. -/
inductive PipeError where
  | unsupportedOption (msg : String)
  | keyError (key : String)
  | valueError (msg : String)
  | typeError (msg : String)
  | indexError (msg : String)
  | attributeError (msg : String)
  | backendError (msg : String)
  | parserError (msg : String)
deriving Repr, DecidableEq

/-- Embeds Python `str(err)` on an exception, as interpolated by
`read`'s wrapping f-string (a `KeyError` renders its key quoted). -/
def errStr : PipeError → String
  | .unsupportedOption msg => msg
  | .keyError key => "\x27" ++ key ++ "\x27"
  | .valueError msg => msg
  | .typeError msg => msg
  | .indexError msg => msg
  | .attributeError msg => msg
  | .backendError msg => msg
  | .parserError msg => msg

/-- Mutable environment of `_translate_kwargs`: the caller's record
`self.kwds`, the working copy `opts`, the local variable `skiprows`
(`sk`), and the accumulating `polars_kwargs` (`pk`). Threading the
caller's record through every step makes its preservation a theorem
rather than a modelling assumption. -/
structure TEnv where
  kwds : Dict
  opts : Dict
  sk : Val
  pk : Dict
deriving Repr, DecidableEq

/-- Result of one translation step: the updated environment plus the
raised exception, if any. -/
abbrev StepRes := TEnv × Option PipeError

/-- Step succeeded with the given environment. -/
def stepOk (env : TEnv) : StepRes := (env, none)

/-- Step raised the given exception; the environment is as it stood at
the raise. -/
def stepErr (env : TEnv) (e : PipeError) : StepRes := (env, some e)

/-- Sequences two steps: a raised exception short-circuits, as Python
exception propagation does. -/
def seqStep (r : StepRes) (f : TEnv → StepRes) : StepRes :=
  match r with
  | (env, none) => f env
  | (env, some e) => (env, some e)

/-- The `pandas_map` table of direct parameter renames from
`_translate_kwargs`. -/
def pandas_map : List (String × String) :=
  [("sep", "separator"),
   ("delimiter", "separator"),
   ("names", "new_columns"),
   ("quotechar", "quote_char"),
   ("comment", "comment_prefix"),
   ("storage_options", "storage_options"),
   ("encoding", "encoding"),
   ("low_memory", "low_memory")]

/-- The direct-mapping loop: for each `(pd_key, pl_key)` of
`pandas_map`, when `pd_key` is present in `opts` with a non-`None`
value, write it to `polars_kwargs` under `pl_key`. -/
def applyDirect (opts : Dict) (pk : Dict) : Dict :=
  pandas_map.foldl
    (fun pk kv =>
      match opts.get kv.1 with
      | some v => if v ≠ .vnone then pk.set kv.2 v else pk
      | none => pk)
    pk

/-- Header handling block of `_translate_kwargs`: reads
`opts["header"]` (a missing key raises `KeyError`), initializes the
local `skiprows` from `opts.get("skiprows", 0)`, then dispatches on the
header form. A non-zero integer or a single-element integer list folds
the header row into the local `skiprows`; any other list raises; other
scalar forms fall through without touching `has_header`.

Python unifies `bool` with `int` (`True == 1`); that coercion is not
modelled since upstream option validation never passes a boolean
header. -/
def headerStep (env : TEnv) : StepRes :=
  match env.opts.get "header" with
  | none => stepErr env (.keyError "header")
  | some header =>
    let env := { env with sk := env.opts.getD "skiprows" (.vint 0) }
    if header = .vstr "infer" ∨ header = .vint 0 then
      stepOk { env with pk := env.pk.set "has_header" (.vbool true) }
    else if header = .vnone then
      stepOk { env with pk := env.pk.set "has_header" (.vbool false) }
    else
      match header with
      | .vint n =>
          stepOk { env with sk := .vint n,
                            pk := env.pk.set "has_header" (.vbool true) }
      | .vlist l =>
          match l with
          | [.vint n] =>
              stepOk { env with sk := .vint n,
                                pk := env.pk.set "has_header" (.vbool true) }
          | _ =>
              stepErr env
                (.unsupportedOption "Polars does not support multiple header rows")
      | _ => stepOk env

/-- Skip-rows handling block: an integer passes through, an empty
list/tuple means 0, a single-element integer list/tuple passes its
element, longer or non-integer sequences and callables raise, and any
other value falls through without setting `skip_rows`. -/
def skiprowsStep (env : TEnv) : StepRes :=
  match env.sk with
  | .vint s => stepOk { env with pk := env.pk.set "skip_rows" (.vint s) }
  | .vlist l =>
      match l with
      | [] => stepOk { env with pk := env.pk.set "skip_rows" (.vint 0) }
      | [.vint k] => stepOk { env with pk := env.pk.set "skip_rows" (.vint k) }
      | _ =>
          stepErr env
            (.unsupportedOption
              "Polars does not support skipping multiple rows by list or tuple of integers.")
  | .vcallable _ =>
      stepErr env
        (.unsupportedOption "Polars does not support callable skiprows argument.")
  | _ => stepOk env

/-- Column-selection block: a present `usecols` is passed through as
`columns` unless it is callable, which raises. -/
def usecolsStep (env : TEnv) : StepRes :=
  match env.opts.get "usecols" with
  | none => stepOk env
  | some u =>
      match u with
      | .vcallable _ =>
          stepErr env
            (.unsupportedOption "Polars does not support callable usecols argument")
      | _ => stepOk { env with pk := env.pk.set "columns" u }

/-- Line-terminator block: a present, non-`None` `lineterminator`
becomes `eol_char`. -/
def lineterminatorStep (env : TEnv) : StepRes :=
  match env.opts.get "lineterminator" with
  | none => stepOk env
  | some v =>
      if v ≠ .vnone then stepOk { env with pk := env.pk.set "eol_char" v }
      else stepOk env

/-- Decimal-separator block: `","` sets `decimal_comma` true, `"."`
sets it false, anything else raises naming the separator. -/
def decimalStep (env : TEnv) : StepRes :=
  match env.opts.get "decimal" with
  | none => stepOk env
  | some d =>
      if d = .vstr "," then
        stepOk { env with pk := env.pk.set "decimal_comma" (.vbool true) }
      else if d = .vstr "." then
        stepOk { env with pk := env.pk.set "decimal_comma" (.vbool false) }
      else
        stepErr env
          (.unsupportedOption
            ("Polars only supports \x27.\x27 or \x27,\x27 as decimal separator, got \x27"
              ++ pyStr d ++ "\x27"))

/-- Date-parsing block: `self.parse_dates` (populated by the base
parser from the same record, modelled by the `parse_dates` entry; the
`hasattr` guard corresponds to the key being absent) passes through
when boolean and raises when column-specific. The raised message keeps
the source's missing space between the concatenated literals. -/
def parseDatesStep (env : TEnv) : StepRes :=
  match env.opts.get "parse_dates" with
  | none => stepOk env
  | some .vnone => stepOk env
  | some (.vbool b) =>
      stepOk { env with pk := env.pk.set "try_parse_dates" (.vbool b) }
  | some _ =>
      stepErr env
        (.unsupportedOption
          ("Polars does not support date parsing with `parse_dates` of specific columns. Use"
            ++ "only boolean `parse_dates` to enable date parsing for all columns."))

/-- Bad-line policy block: the default `"error"` sets
`raise_if_empty = True, ignore_errors = False`; `"warn"`/`"skip"` set
the opposite pair; other values leave both unset. -/
def onBadLinesStep (env : TEnv) : StepRes :=
  let obl := env.opts.getD "on_bad_lines" (.vstr "error")
  if obl = .vstr "error" then
    stepOk { env with
      pk := (env.pk.set "raise_if_empty" (.vbool true)).set "ignore_errors" (.vbool false) }
  else if obl = .vstr "warn" ∨ obl = .vstr "skip" then
    stepOk { env with
      pk := (env.pk.set "raise_if_empty" (.vbool false)).set "ignore_errors" (.vbool true) }
  else stepOk env

/-- The translator's starting environment: `opts = self.kwds.copy()`,
a fresh `polars_kwargs` already holding the direct mappings, and the
`skiprows` local not yet initialized. -/
def startEnv (kwds : Dict) : TEnv :=
  { kwds := kwds, opts := kwds, sk := .vint 0,
    pk := applyDirect kwds ⟨[]⟩ }

/-- The translator pipeline up to (excluding) the decimal block:
header, skip-rows, usecols and line-terminator handling in source
order. -/
def preDecimalRun (kwds : Dict) : StepRes :=
  seqStep (seqStep (seqStep (headerStep (startEnv kwds)) skiprowsStep) usecolsStep)
    lineterminatorStep

/-- The full step chain of `_translate_kwargs`. -/
def translateChain (kwds : Dict) : StepRes :=
  seqStep (seqStep (seqStep (preDecimalRun kwds) decimalStep) parseDatesStep)
    onBadLinesStep

/-- The whole `_translate_kwargs`, threading the mutable environment:
returns the produced `polars_kwargs` or the raised exception, paired
with the final value of the caller's record `self.kwds`. -/
def translateRun (kwds : Dict) : Except PipeError Dict × Dict :=
  match translateChain kwds with
  | (env, none) => (.ok env.pk, env.kwds)
  | (env, some e) => (.error e, env.kwds)

/-- Functional view of `_translate_kwargs`: the returned backend
options record, or the raised exception. -/
def translateKwargs (kwds : Dict) : Except PipeError Dict :=
  (translateRun kwds).1

/-- The parser-state dtype specification `self.dtype`: absent, a single
specifier, or a mapping from column identifier to specifier. -/
inductive DtypeSpec where
  | dnone
  | dsingle (v : Val)
  | ddict (entries : List (Val × Val))
deriving Repr, DecidableEq

/-- One body column of a tabular result: its label and its dtype. Cell
values are irrelevant to the wrapper's own logic (value-level casting
is the external `astype` collaborator) and are not modelled. -/
structure Column where
  label : Val
  dtype : Val
deriving Repr, DecidableEq

/-- A tabular result: ordered body columns plus the index, `none` for
the default positional index and otherwise the ordered index levels,
each carrying its name (possibly cleared to `None`) and dtype. -/
structure Frame where
  cols : List Column
  index : Option (List (Option Val × Val))
deriving Repr, DecidableEq

/-- The slice of parser state (`ParserBase` attributes populated from
the caller's record) that `_finalize_pandas_output` reads and writes:
`self.header`, `self.names`, `self.index_col`, `self.dtype`. -/
structure SelfState where
  header : Val
  names : Option (List Val)
  index_col : Val
  dtype : DtypeSpec
deriving Repr, DecidableEq

/-- Embeds Python `range(n)` used as a column-label sequence. -/
def rangeVals (n : Nat) : List Val :=
  (List.range n).map (fun i => .vint (i : Int))

/-- Modelled from the spec: the external dtype-resolution collaborator
(`pandas_dtype`, out of scope) maps a dtype specifier to its concrete
dtype; modelled as the identity on specifiers. -/
def pandas_dtype (v : Val) : Val := v

/-- Modelled from the spec: the external date-conversion collaborator
(`self._do_date_conversions`, out of scope) is invoked between header
synthesis and index materialization; modelled as the identity. -/
def doDateConversions (_cols : List Val) (frame : Frame) : Frame := frame

/-- The ordered column labels of a frame (`frame.columns`). -/
def frameLabels (f : Frame) : List Val :=
  f.cols.map (fun c => c.label)

/-- Embeds `frame.columns[n]` for an integer `n`, with Python's
negative indexing; `none` embeds the raised `IndexError`. -/
def colLabelAt (f : Frame) (n : Int) : Option Val :=
  let len : Int := (f.cols.length : Int)
  let idx := if n < 0 then n + len else n
  if idx < 0 then none
  else (f.cols.get? idx.toNat).map (fun c => c.label)

/-- First-match lookup in a value-keyed mapping (the dtype dict). -/
def vGet : List (Val × Val) → Val → Option Val
  | [], _ => none
  | (k, v) :: rest, key => if k = key then some v else vGet rest key

/-- Embeds Python `d.get(k)` on the dtype dict: `None` both for an
absent key and for a stored `None`. -/
def pyDGet (es : List (Val × Val)) (k : Val) : Val :=
  (vGet es k).getD .vnone

/-- Removes the first entry for a key (`del d[k]`; presence is checked
at the call site). -/
def vDel : List (Val × Val) → Val → List (Val × Val)
  | [], _ => []
  | (k, v) :: rest, key => if k = key then rest else (k, v) :: vDel rest key

/-- Embeds `frame[key] = frame[key].astype(new_dtype)`: records the
requested dtype on every column labelled `key`; a missing label is the
`KeyError` the column lookup would raise. Value-level cast failures
belong to the external `astype` collaborator and are not modelled. -/
def astypeCol (f : Frame) (key : Val) (dt : Val) : Except PipeError Frame :=
  if (frameLabels f).contains key then
    .ok { f with cols := f.cols.map (fun c =>
            if c.label = key then { c with dtype := dt } else c) }
  else .error (.keyError (pyRepr key))

/-- The `for i, item in enumerate(self.index_col)` loop of
`_finalize_pandas_output`: resolves each identifier into
`index_to_set`, and performs the per-level dtype bookkeeping (cast in
place, then delete the consumed dtype entry). -/
def indexColLoop : List Val → Nat → List Val → Frame → DtypeSpec →
    Except PipeError (List Val × Frame × DtypeSpec)
  | [], _, its, f, dt => .ok (its, f, dt)
  | item :: rest, i, its, f, dt => do
      let its ←
        match item with
        | .vint n =>
            match colLabelAt f n with
            | some lab => Except.ok (its.set i lab)
            | none => Except.error (.indexError "list index out of range")
        | _ =>
            if (frameLabels f).contains item then Except.ok its
            else Except.error (.valueError ("Index " ++ pyStr item ++ " invalid"))
      match dt with
      | .dnone => indexColLoop rest (i + 1) its f dt
      | .dsingle _ =>
          -- the source calls `.get` on `self.dtype`, valid only for a dict
          Except.error (.attributeError "object has no attribute get")
      | .ddict es => do
          let kn ←
            if pyDGet es item ≠ .vnone then Except.ok (item, pyDGet es item)
            else
              match item with
              | .vint n =>
                  match colLabelAt f n with
                  | some lab => Except.ok (lab, pyDGet es lab)
                  | none => Except.error (PipeError.indexError "list index out of range")
              | _ => Except.error (PipeError.typeError "only integers are valid column indices")
          if kn.2 ≠ .vnone then do
            let f ← astypeCol f kn.1 kn.2
            if (vGet es kn.1).isSome then
              indexColLoop rest (i + 1) its f (.ddict (vDel es kn.1))
            else Except.error (.keyError (pyRepr kn.1))
          else indexColLoop rest (i + 1) its f (.ddict es)

/-- Moves the first column labelled `key` out of the column list. -/
def extractCol : List Column → Val → Option (Column × List Column)
  | [], _ => none
  | c :: cs, key =>
      if c.label = key then some (c, cs)
      else (extractCol cs key).map (fun p => (p.1, c :: p.2))

/-- Promotes the keyed columns into index levels in order, removing
them from the body. -/
def setIndexGo : List Val → List Column → List (Option Val × Val) →
    Except PipeError (List Column × List (Option Val × Val))
  | [], cols, levels => .ok (cols, levels)
  | k :: ks, cols, levels =>
      match extractCol cols k with
      | some (c, cols') => setIndexGo ks cols' (levels ++ [(some k, c.dtype)])
      | none => .error (.keyError (pyRepr k))

/-- Embeds `frame.set_index(index_to_set, drop=True, inplace=True)`:
the listed columns become the index levels, named after their labels,
replacing any previous index. -/
def setIndexDrop (f : Frame) (keys : List Val) : Except PipeError Frame :=
  match setIndexGo keys f.cols [] with
  | .ok (cols, levels) => .ok { cols := cols, index := some levels }
  | .error e => .error e

/-- Embeds `frame.astype(single_dtype)` at the dtype level. -/
def astypeAll (f : Frame) (dt : Val) : Frame :=
  { f with cols := f.cols.map (fun c => { c with dtype := dt }) }

/-- Embeds `frame.astype(dtype_dict)` at the dtype level (the dict is
already restricted to present labels). -/
def astypeDictAll (f : Frame) (es : List (Val × Val)) : Frame :=
  { f with cols := f.cols.map (fun c =>
      match vGet es c.label with
      | some v => { c with dtype := v }
      | none => c) }

/-- The whole `_finalize_pandas_output`: header synthesis, date
conversion hook, index materialization with dtype bookkeeping and
index-name clearing, then residual dtype coercion. Returns the final
frame together with the updated parser state (`self.names`,
`self.dtype`). -/
def finalizePandasOutput (frame : Frame) (st : SelfState) :
    Except PipeError (Frame × SelfState) := do
  let num_cols := frame.cols.length
  let (frame, names, multi_index_named) ←
    if st.header = .vnone then
      let names0 : List Val :=
        match st.names with
        | none => rangeVals num_cols
          -- the source's redundant inner `if self.header is None` re-check
          -- is always true on this branch
        | some ns => ns
      let (names1, min1) :=
        if names0.length ≠ num_cols then
          (((List.range (num_cols - names0.length)).map
              (fun i => Val.vstr (toString i))) ++ names0, false)
        else (names0, true)
      -- `frame.columns = self.names`: the pandas column-assignment
      -- contract requires matching length
      if names1.length = num_cols then
        let relabeled :=
          List.zipWith (fun c l => { c with label := l }) frame.cols names1
        Except.ok ({ frame with cols := relabeled }, some names1, min1)
      else Except.error (.valueError "Length mismatch: columns assignment")
    else Except.ok (frame, st.names, true)
  let frame := doDateConversions (frameLabels frame) frame
  let (frame, dt) ←
    match st.index_col with
    | .vnone => Except.ok (frame, st.dtype)
    | .vbool false => Except.ok (frame, st.dtype)
    | .vlist items => do
        let (its, frame, dt) ← indexColLoop items 0 items frame st.dtype
        let frame ← setIndexDrop frame its
        -- Clear names if headerless and no name given
        let frame :=
          if st.header = .vnone ∧ multi_index_named = false then
            { frame with index := frame.index.map (fun lvls =>
                lvls.map (fun lv => ((none : Option Val), lv.2))) }
          else frame
        Except.ok (frame, dt)
    | _ =>
        -- `self.index_col.copy()` on a non-list, non-null value
        Except.error (.attributeError "object has no attribute copy")
  match dt with
  | .dnone => Except.ok (frame, { st with names := names, dtype := dt })
  | .ddict es =>
      let es2 := (es.filter (fun kv => (frameLabels frame).contains kv.1)).map
        (fun kv => (kv.1, pandas_dtype kv.2))
      Except.ok (astypeDictAll frame es2,
        { st with names := names, dtype := .ddict es2 })
  | .dsingle v =>
      let v2 := pandas_dtype v
      Except.ok (astypeAll frame v2,
        { st with names := names, dtype := .dsingle v2 })

/-- Embeds the `if nrows is not None: kwds["n_rows"] = nrows` line of
`_read_csv_with_polars`. -/
def applyNrows (pk : Dict) (nrows : Option Int) : Dict :=
  match nrows with
  | some n => pk.set "n_rows" (.vint n)
  | none => pk

/-- The `_read_csv_with_polars` pipeline: translate the options, pass
them (with the optional row limit) to the external backend capability,
then normalize the raw result. The backend is a parameter, as the
wrapper treats it as an opaque capability that returns a frame or
fails with an arbitrary error. -/
def readCsvWithPolars (backend : Dict → Except PipeError Frame)
    (st : SelfState) (kwds : Dict) (nrows : Option Int) :
    Except PipeError Frame := do
  let pk ← translateKwargs kwds
  let frame ← backend (applyNrows pk nrows)
  let r ← finalizePandasOutput frame st
  pure r.1

/-- The `read` entry point: any exception escaping the pipeline is
caught and re-raised as `ParserError` with the original message
interpolated. -/
def read (backend : Dict → Except PipeError Frame) (st : SelfState)
    (kwds : Dict) (nrows : Option Int) : Except PipeError Frame :=
  match readCsvWithPolars backend st kwds nrows with
  | .error e => .error (.parserError ("Polars CSV parser error: " ++ errStr e))
  | .ok f => .ok f

/-! Spec-side characterizations used to state the claims about the
header/skip-rows interaction. They restate the spec's words, to be
compared with the translator embedded above. -/

/-- Header-fold offset per the spec's rule 2: a non-zero integer `N`
or the single-element list `[N]` folds `N` into the skip count;
`"infer"`, `0`, `null` and every other form folds nothing. -/
def foldOfV : Val → Option Int
  | .vint n => if n = 0 then none else some n
  | .vlist [.vint n] => some n
  | _ => none

/-- Header-fold offset of an optional `header` entry. -/
def foldOf : Option Val → Option Int
  | some h => foldOfV h
  | none => none

/-- The explicit skip count per the spec's rule 3: a missing entry
defaults to 0, an integer is itself, an empty sequence is 0, a
single-element integer sequence is its element; other forms
(multi-element sequences, callables, odd scalars) have none. -/
def explicitSkip : Option Val → Option Int
  | none => some 0
  | some (.vint k) => some k
  | some (.vlist []) => some 0
  | some (.vlist [.vint k]) => some k
  | _ => none

/-- Whether a header value is the form the translator rejects as a
multi-row header: a list other than a single-element integer list. -/
def headerMultiErr : Val → Bool
  | .vlist [.vint _] => false
  | .vlist _ => true
  | _ => false

/-- Environments that agree on everything the post-header pipeline
reads: the `skiprows` local, the accumulated backend record, and every
`opts` entry other than `header`. -/
def EnvRel (e1 e2 : TEnv) : Prop :=
  e1.sk = e2.sk ∧ e1.pk = e2.pk ∧
    ∀ k, k ≠ "header" → e1.opts.get k = e2.opts.get k

/-- Step results that agree on the related environment and on the
raised exception. -/
def ResRel (r1 r2 : StepRes) : Prop :=
  EnvRel r1.1 r2.1 ∧ r1.2 = r2.2

/-! Concrete records and frames exercising the claims. -/

/-- Options record with a folding header and an explicit skip count. -/
def kwdsHdr2Skip3 : Dict := ⟨[("header", .vint 2), ("skiprows", .vint 3)]⟩

/-- Options record with a folding header and a callable `skiprows`. -/
def kwdsHdr2SkipCall : Dict := ⟨[("header", .vint 2), ("skiprows", .vcallable 0)]⟩

/-- Backend record produced for a bare `header = 2` request (with the
default bad-line policy): header folded into `skip_rows`. -/
def pkHdr2 : Dict :=
  ⟨[("has_header", .vbool true), ("skip_rows", .vint 2),
    ("raise_if_empty", .vbool true), ("ignore_errors", .vbool false)]⟩

/-- Options record whose decimal separator the backend cannot honor. -/
def kwdsBadDecimal : Dict := ⟨[("header", .vstr "infer"), ("decimal", .vstr ";")]⟩

/-- The message the translator raises for the `";"` separator. -/
def badDecimalMsg : String :=
  "Polars only supports \x27.\x27 or \x27,\x27 as decimal separator, got \x27;\x27"

/-- Options record for the decimal witness: supported `"."` separator. -/
def kwdsDotDecimal : Dict := ⟨[("header", .vstr "infer"), ("decimal", .vstr ".")]⟩

/-- The backend record the translator produces for `kwdsDotDecimal`. -/
def pkDotDecimal : Dict :=
  match translateKwargs kwdsDotDecimal with
  | .ok pk => pk
  | .error _ => ⟨[]⟩

/-- A trivial backend capability that always returns an empty frame. -/
def bkEmpty : Dict → Except PipeError Frame := fun _ => .ok { cols := [], index := none }

/-- A trivial parser state: inferred header, nothing else requested. -/
def stTriv : SelfState :=
  { header := .vstr "infer", names := none, index_col := .vnone, dtype := .dnone }

/-- A raw backend frame with three columns, as Polars would label a
headerless read. -/
def frThree : Frame :=
  { cols := [{ label := .vstr "column_1", dtype := .vstr "object" },
             { label := .vstr "column_2", dtype := .vstr "object" },
             { label := .vstr "column_3", dtype := .vstr "object" }],
    index := none }

/-- Parser state of the C2 scenario: headerless, no names,
`index_col=[0]`, `dtype={0: "int64"}`. -/
def stIdxDtype : SelfState :=
  { header := .vnone, names := none, index_col := .vlist [.vint 0],
    dtype := .ddict [(.vint 0, .vstr "int64")] }

/-- Parser state of the C8 scenario: headerless, `names=["a"]`, no
index, no dtype. -/
def stNamesA : SelfState :=
  { header := .vnone, names := some [.vstr "a"], index_col := .vnone,
    dtype := .dnone }

/-! Lemmas about the dictionary embedding. -/

theorem getEntries_set_self (l : List (String × Val)) (key : String) (v : Val) :
    getEntries (setEntries l key v) key = some v := by
  induction l with
  | nil => simp [setEntries, getEntries]
  | cons kv rest ih =>
      obtain ⟨k, w⟩ := kv
      by_cases h : k = key
      · simp [setEntries, getEntries, h]
      · simp [setEntries, getEntries, h, ih]

theorem getEntries_set_ne (l : List (String × Val)) (key k2 : String) (v : Val)
    (h : k2 ≠ key) : getEntries (setEntries l key v) k2 = getEntries l k2 := by
  induction l with
  | nil => simp [setEntries, getEntries, Ne.symm h]
  | cons kv rest ih =>
      obtain ⟨k, w⟩ := kv
      by_cases hk : k = key
      · subst hk
        simp [setEntries, getEntries, Ne.symm h]
      · simp [setEntries, getEntries, hk, ih]

theorem Dict.get_set_self (d : Dict) (key : String) (v : Val) :
    (d.set key v).get key = some v :=
  getEntries_set_self d.entries key v

theorem Dict.get_set_ne (d : Dict) (key k2 : String) (v : Val) (h : k2 ≠ key) :
    (d.set key v).get k2 = d.get k2 :=
  getEntries_set_ne d.entries key k2 v h

theorem Dict.get_eq_none_of_member_false (d : Dict) (k : String)
    (h : d.member k = false) : d.get k = none := by
  unfold Dict.member at h
  cases hg : d.get k with
  | none => rfl
  | some v => rw [hg] at h; simp at h

/-! Lemmas about step sequencing. -/

theorem seqStep_err (env : TEnv) (e : PipeError) (f : TEnv → StepRes) :
    seqStep (env, some e) f = (env, some e) := rfl

theorem seqStep_okStep (env : TEnv) (f : TEnv → StepRes) :
    seqStep (env, none) f = f env := rfl

theorem seqStep_ok_inv (r : StepRes) (f : TEnv → StepRes) (env2 : TEnv)
    (h : seqStep r f = (env2, none)) :
    ∃ em, r = (em, none) ∧ f em = (env2, none) := by
  obtain ⟨env, err⟩ := r
  cases err with
  | none => exact ⟨env, rfl, h⟩
  | some e => simp [seqStep] at h

theorem seqStep_pres (P : TEnv → Prop) (r : StepRes) (f : TEnv → StepRes)
    (hP : P r.1) (hf : ∀ e, P e → P ((f e).1)) : P ((seqStep r f).1) := by
  obtain ⟨env, err⟩ := r
  cases err with
  | none => exact hf env hP
  | some e => exact hP

/-! Each translation step leaves the caller's record and the working
copy untouched: the only mutated stores are the `skiprows` local and
the backend accumulator. -/

theorem headerStep_kwds_opts (env : TEnv) :
    ((headerStep env).1).kwds = env.kwds ∧ ((headerStep env).1).opts = env.opts := by
  unfold headerStep
  rcases env.opts.get "header" with _ | header
  · exact ⟨rfl, rfl⟩
  · by_cases h1 : header = .vstr "infer" ∨ header = .vint 0
    · simp only [if_pos h1]; exact ⟨rfl, rfl⟩
    · by_cases h2 : header = .vnone
      · simp only [if_neg h1, if_pos h2]; exact ⟨rfl, rfl⟩
      · simp only [if_neg h1, if_neg h2]
        cases header with
        | vlist l =>
            cases l with
            | nil => exact ⟨rfl, rfl⟩
            | cons x xs =>
                cases x <;> cases xs <;> exact ⟨rfl, rfl⟩
        | _ => exact ⟨rfl, rfl⟩

theorem skiprowsStep_kwds_opts (env : TEnv) :
    ((skiprowsStep env).1).kwds = env.kwds ∧ ((skiprowsStep env).1).opts = env.opts := by
  unfold skiprowsStep
  cases h : env.sk with
  | vlist l =>
      cases l with
      | nil => exact ⟨rfl, rfl⟩
      | cons x xs => cases x <;> cases xs <;> exact ⟨rfl, rfl⟩
  | _ => exact ⟨rfl, rfl⟩

theorem usecolsStep_kwds_opts (env : TEnv) :
    ((usecolsStep env).1).kwds = env.kwds ∧ ((usecolsStep env).1).opts = env.opts := by
  unfold usecolsStep
  rcases env.opts.get "usecols" with _ | u
  · exact ⟨rfl, rfl⟩
  · cases u <;> exact ⟨rfl, rfl⟩

theorem lineterminatorStep_kwds_opts (env : TEnv) :
    ((lineterminatorStep env).1).kwds = env.kwds ∧
      ((lineterminatorStep env).1).opts = env.opts := by
  unfold lineterminatorStep
  rcases env.opts.get "lineterminator" with _ | v
  · exact ⟨rfl, rfl⟩
  · by_cases h : v ≠ .vnone
    · simp only [if_pos h]; exact ⟨rfl, rfl⟩
    · simp only [if_neg h]; exact ⟨rfl, rfl⟩

theorem decimalStep_kwds_opts (env : TEnv) :
    ((decimalStep env).1).kwds = env.kwds ∧ ((decimalStep env).1).opts = env.opts := by
  unfold decimalStep
  rcases env.opts.get "decimal" with _ | d
  · exact ⟨rfl, rfl⟩
  · by_cases h1 : d = .vstr ","
    · simp only [if_pos h1]; exact ⟨rfl, rfl⟩
    · by_cases h2 : d = .vstr "."
      · simp only [if_neg h1, if_pos h2]; exact ⟨rfl, rfl⟩
      · simp only [if_neg h1, if_neg h2]; exact ⟨rfl, rfl⟩

theorem parseDatesStep_kwds_opts (env : TEnv) :
    ((parseDatesStep env).1).kwds = env.kwds ∧
      ((parseDatesStep env).1).opts = env.opts := by
  unfold parseDatesStep
  rcases env.opts.get "parse_dates" with _ | v
  · exact ⟨rfl, rfl⟩
  · cases v <;> exact ⟨rfl, rfl⟩

theorem onBadLinesStep_kwds_opts (env : TEnv) :
    ((onBadLinesStep env).1).kwds = env.kwds ∧
      ((onBadLinesStep env).1).opts = env.opts := by
  unfold onBadLinesStep
  by_cases h1 : env.opts.getD "on_bad_lines" (.vstr "error") = .vstr "error"
  · simp only [if_pos h1]; exact ⟨rfl, rfl⟩
  · by_cases h2 : env.opts.getD "on_bad_lines" (.vstr "error") = .vstr "warn" ∨
        env.opts.getD "on_bad_lines" (.vstr "error") = .vstr "skip"
    · simp only [if_neg h1, if_pos h2]; exact ⟨rfl, rfl⟩
    · simp only [if_neg h1, if_neg h2]; exact ⟨rfl, rfl⟩

/-! Each post-skip step can only write its own backend keys, so the
`skip_rows` and `decimal_comma` entries it does not own survive it. -/

theorem usecolsStep_pk_get (env : TEnv) (K : String) (h : K ≠ "columns") :
    ((usecolsStep env).1).pk.get K = env.pk.get K := by
  unfold usecolsStep
  rcases env.opts.get "usecols" with _ | u
  · rfl
  · cases u <;> simp [stepOk, stepErr, Dict.get_set_ne _ _ _ _ h]

theorem lineterminatorStep_pk_get (env : TEnv) (K : String) (h : K ≠ "eol_char") :
    ((lineterminatorStep env).1).pk.get K = env.pk.get K := by
  unfold lineterminatorStep
  rcases env.opts.get "lineterminator" with _ | v
  · rfl
  · by_cases hv : v ≠ .vnone
    · simp [if_pos hv, stepOk, Dict.get_set_ne _ _ _ _ h]
    · simp [if_neg hv, stepOk]

theorem decimalStep_pk_get (env : TEnv) (K : String) (h : K ≠ "decimal_comma") :
    ((decimalStep env).1).pk.get K = env.pk.get K := by
  unfold decimalStep
  rcases env.opts.get "decimal" with _ | d
  · rfl
  · by_cases h1 : d = .vstr ","
    · simp [if_pos h1, stepOk, Dict.get_set_ne _ _ _ _ h]
    · by_cases h2 : d = .vstr "."
      · simp [if_neg h1, if_pos h2, stepOk, Dict.get_set_ne _ _ _ _ h]
      · simp [if_neg h1, if_neg h2, stepErr]

theorem parseDatesStep_pk_get (env : TEnv) (K : String)
    (h : K ≠ "try_parse_dates") :
    ((parseDatesStep env).1).pk.get K = env.pk.get K := by
  unfold parseDatesStep
  rcases env.opts.get "parse_dates" with _ | v
  · rfl
  · cases v <;> simp [stepOk, stepErr, Dict.get_set_ne _ _ _ _ h]

theorem onBadLinesStep_pk_get (env : TEnv) (K : String)
    (h1 : K ≠ "raise_if_empty") (h2 : K ≠ "ignore_errors") :
    ((onBadLinesStep env).1).pk.get K = env.pk.get K := by
  unfold onBadLinesStep
  by_cases hb : env.opts.getD "on_bad_lines" (.vstr "error") = .vstr "error"
  · simp [if_pos hb, stepOk, Dict.get_set_ne _ _ _ _ h1, Dict.get_set_ne _ _ _ _ h2]
  · by_cases hw : env.opts.getD "on_bad_lines" (.vstr "error") = .vstr "warn" ∨
        env.opts.getD "on_bad_lines" (.vstr "error") = .vstr "skip"
    · simp [if_neg hb, if_pos hw, stepOk, Dict.get_set_ne _ _ _ _ h1,
        Dict.get_set_ne _ _ _ _ h2]
    · simp [if_neg hb, if_neg hw, stepOk]

/-! Preservation of the caller's record through the whole chain. -/

theorem preDecimalRun_kwds_opts (kwds : Dict) :
    ((preDecimalRun kwds).1).kwds = kwds ∧ ((preDecimalRun kwds).1).opts = kwds := by
  unfold preDecimalRun
  have P0 : ((headerStep (startEnv kwds)).1).kwds = kwds ∧
      ((headerStep (startEnv kwds)).1).opts = kwds := by
    have h := headerStep_kwds_opts (startEnv kwds)
    simpa [startEnv] using h
  have P1 := seqStep_pres (fun e => e.kwds = kwds ∧ e.opts = kwds)
    (headerStep (startEnv kwds)) skiprowsStep P0
    (fun e he => by
      have h := skiprowsStep_kwds_opts e
      exact ⟨h.1.trans he.1, h.2.trans he.2⟩)
  have P2 := seqStep_pres (fun e => e.kwds = kwds ∧ e.opts = kwds)
    _ usecolsStep P1
    (fun e he => by
      have h := usecolsStep_kwds_opts e
      exact ⟨h.1.trans he.1, h.2.trans he.2⟩)
  exact seqStep_pres (fun e => e.kwds = kwds ∧ e.opts = kwds)
    _ lineterminatorStep P2
    (fun e he => by
      have h := lineterminatorStep_kwds_opts e
      exact ⟨h.1.trans he.1, h.2.trans he.2⟩)

theorem translateChain_kwds_opts (kwds : Dict) :
    ((translateChain kwds).1).kwds = kwds ∧ ((translateChain kwds).1).opts = kwds := by
  unfold translateChain
  have P1 := seqStep_pres (fun e => e.kwds = kwds ∧ e.opts = kwds)
    (preDecimalRun kwds) decimalStep (preDecimalRun_kwds_opts kwds)
    (fun e he => by
      have h := decimalStep_kwds_opts e
      exact ⟨h.1.trans he.1, h.2.trans he.2⟩)
  have P2 := seqStep_pres (fun e => e.kwds = kwds ∧ e.opts = kwds)
    _ parseDatesStep P1
    (fun e he => by
      have h := parseDatesStep_kwds_opts e
      exact ⟨h.1.trans he.1, h.2.trans he.2⟩)
  exact seqStep_pres (fun e => e.kwds = kwds ∧ e.opts = kwds)
    _ onBadLinesStep P2
    (fun e he => by
      have h := onBadLinesStep_kwds_opts e
      exact ⟨h.1.trans he.1, h.2.trans he.2⟩)

/-! Dispatch lemmas for the header block, one per header shape. -/

theorem headerStep_absent (env : TEnv) (h : env.opts.get "header" = none) :
    headerStep env = (env, some (.keyError "header")) := by
  simp [headerStep, h, stepErr]

theorem headerStep_fold (env : TEnv) (hd : Val) (n : Int)
    (h : env.opts.get "header" = some hd) (hf : foldOfV hd = some n) :
    headerStep env =
      ({ env with sk := .vint n, pk := env.pk.set "has_header" (.vbool true) },
       none) := by
  cases hd with
  | vint m =>
      have hm : ¬ m = 0 := by
        intro h0; subst h0; simp [foldOfV] at hf
      have hn : m = n := by simpa [foldOfV, hm] using hf
      subst hn
      simp [headerStep, h, stepOk, hm]
  | vnone => simp [foldOfV] at hf
  | vstr s => simp [foldOfV] at hf
  | vbool b => simp [foldOfV] at hf
  | vcallable i => simp [foldOfV] at hf
  | vlist l =>
      cases l with
      | nil => simp [foldOfV] at hf
      | cons x xs =>
          cases xs with
          | cons y ys => simp [foldOfV] at hf
          | nil =>
              cases x with
              | vint k =>
                  have hn : k = n := by simpa [foldOfV] using hf
                  subst hn
                  simp [headerStep, h, stepOk]
              | vnone => simp [foldOfV] at hf
              | vstr s => simp [foldOfV] at hf
              | vbool b => simp [foldOfV] at hf
              | vlist zs => simp [foldOfV] at hf
              | vcallable i => simp [foldOfV] at hf

theorem headerStep_nofold (env : TEnv) (hd : Val)
    (h : env.opts.get "header" = some hd) (hnf : foldOfV hd = none)
    (hne : headerMultiErr hd = false) :
    ∃ pkx, headerStep env =
      ({ env with sk := env.opts.getD "skiprows" (.vint 0), pk := pkx }, none) := by
  cases hd with
  | vnone =>
      exact ⟨env.pk.set "has_header" (.vbool false), by simp [headerStep, h, stepOk]⟩
  | vint m =>
      have hm : m = 0 := by
        by_contra hc; simp [foldOfV, hc] at hnf
      subst hm
      exact ⟨env.pk.set "has_header" (.vbool true), by simp [headerStep, h, stepOk]⟩
  | vstr s =>
      by_cases hs : s = "infer"
      · subst hs
        exact ⟨env.pk.set "has_header" (.vbool true), by simp [headerStep, h, stepOk]⟩
      · exact ⟨env.pk, by simp [headerStep, h, stepOk, hs]⟩
  | vbool b => exact ⟨env.pk, by simp [headerStep, h, stepOk]⟩
  | vcallable i => exact ⟨env.pk, by simp [headerStep, h, stepOk]⟩
  | vlist l =>
      exfalso
      cases l with
      | nil => simp [headerMultiErr] at hne
      | cons x xs =>
          cases xs with
          | cons y ys => simp [headerMultiErr] at hne
          | nil =>
              cases x with
              | vint k => simp [foldOfV] at hnf
              | vnone => simp [headerMultiErr] at hne
              | vstr s => simp [headerMultiErr] at hne
              | vbool b => simp [headerMultiErr] at hne
              | vlist zs => simp [headerMultiErr] at hne
              | vcallable i => simp [headerMultiErr] at hne

theorem headerStep_multi (env : TEnv) (l : List Val)
    (h : env.opts.get "header" = some (.vlist l))
    (hm : headerMultiErr (.vlist l) = true) :
    headerStep env =
      ({ env with sk := env.opts.getD "skiprows" (.vint 0) },
       some (.unsupportedOption "Polars does not support multiple header rows")) := by
  cases l with
  | nil => simp [headerStep, h, stepErr]
  | cons x xs =>
      cases xs with
      | cons y ys => simp [headerStep, h, stepErr]
      | nil =>
          cases x with
          | vint k => simp [headerMultiErr] at hm
          | vnone => simp [headerStep, h, stepErr]
          | vstr s => simp [headerStep, h, stepErr]
          | vbool b => simp [headerStep, h, stepErr]
          | vlist zs => simp [headerStep, h, stepErr]
          | vcallable i => simp [headerStep, h, stepErr]

/-! Dispatch lemmas for the skip-rows block. -/

theorem skiprowsStep_int (env : TEnv) (s : Int) (h : env.sk = .vint s) :
    skiprowsStep env = ({ env with pk := env.pk.set "skip_rows" (.vint s) }, none) := by
  simp [skiprowsStep, h, stepOk]

theorem skiprowsStep_emptyList (env : TEnv) (h : env.sk = .vlist []) :
    skiprowsStep env = ({ env with pk := env.pk.set "skip_rows" (.vint 0) }, none) := by
  simp [skiprowsStep, h, stepOk]

theorem skiprowsStep_single (env : TEnv) (k : Int) (h : env.sk = .vlist [.vint k]) :
    skiprowsStep env = ({ env with pk := env.pk.set "skip_rows" (.vint k) }, none) := by
  simp [skiprowsStep, h, stepOk]

theorem skiprowsStep_callable (env : TEnv) (i : Nat) (h : env.sk = .vcallable i) :
    skiprowsStep env =
      (env, some (.unsupportedOption
        "Polars does not support callable skiprows argument.")) := by
  simp [skiprowsStep, h, stepErr]

theorem skiprowsStep_badList (env : TEnv) (x y : Val) (t : List Val)
    (h : env.sk = .vlist (x :: y :: t)) :
    skiprowsStep env =
      (env, some (.unsupportedOption
        "Polars does not support skipping multiple rows by list or tuple of integers.")) := by
  simp [skiprowsStep, h, stepErr]

theorem skiprowsStep_badSingle (env : TEnv) (x : Val) (h : env.sk = .vlist [x])
    (hx : ∀ k : Int, x ≠ .vint k) :
    skiprowsStep env =
      (env, some (.unsupportedOption
        "Polars does not support skipping multiple rows by list or tuple of integers.")) := by
  cases x with
  | vint k => exact absurd rfl (hx k)
  | vnone => simp [skiprowsStep, h, stepErr]
  | vstr s => simp [skiprowsStep, h, stepErr]
  | vbool b => simp [skiprowsStep, h, stepErr]
  | vlist zs => simp [skiprowsStep, h, stepErr]
  | vcallable i => simp [skiprowsStep, h, stepErr]

theorem skiprowsStep_passNone (env : TEnv) (h : env.sk = .vnone) :
    skiprowsStep env = (env, none) := by
  simp [skiprowsStep, h, stepOk]

theorem skiprowsStep_passStr (env : TEnv) (s : String) (h : env.sk = .vstr s) :
    skiprowsStep env = (env, none) := by
  simp [skiprowsStep, h, stepOk]

theorem skiprowsStep_passBool (env : TEnv) (b : Bool) (h : env.sk = .vbool b) :
    skiprowsStep env = (env, none) := by
  simp [skiprowsStep, h, stepOk]

/-! Dispatch lemmas for the usecols, line-terminator, date-parsing and
bad-line blocks. -/

theorem usecolsStep_absent (env : TEnv) (h : env.opts.get "usecols" = none) :
    usecolsStep env = (env, none) := by
  simp [usecolsStep, h, stepOk]

theorem usecolsStep_callable (env : TEnv) (i : Nat)
    (h : env.opts.get "usecols" = some (.vcallable i)) :
    usecolsStep env =
      (env, some (.unsupportedOption
        "Polars does not support callable usecols argument")) := by
  simp [usecolsStep, h, stepErr]

theorem usecolsStep_pass (env : TEnv) (u : Val)
    (h : env.opts.get "usecols" = some u) (hu : ∀ i : Nat, u ≠ .vcallable i) :
    usecolsStep env = ({ env with pk := env.pk.set "columns" u }, none) := by
  cases u with
  | vcallable i => exact absurd rfl (hu i)
  | vnone => simp [usecolsStep, h, stepOk]
  | vint n => simp [usecolsStep, h, stepOk]
  | vstr s => simp [usecolsStep, h, stepOk]
  | vbool b => simp [usecolsStep, h, stepOk]
  | vlist l => simp [usecolsStep, h, stepOk]

theorem lineterminatorStep_absent (env : TEnv)
    (h : env.opts.get "lineterminator" = none) :
    lineterminatorStep env = (env, none) := by
  simp [lineterminatorStep, h, stepOk]

theorem lineterminatorStep_none (env : TEnv)
    (h : env.opts.get "lineterminator" = some .vnone) :
    lineterminatorStep env = (env, none) := by
  simp [lineterminatorStep, h, stepOk]

theorem lineterminatorStep_pass (env : TEnv) (v : Val)
    (h : env.opts.get "lineterminator" = some v) (hv : v ≠ .vnone) :
    lineterminatorStep env = ({ env with pk := env.pk.set "eol_char" v }, none) := by
  simp [lineterminatorStep, h, hv, stepOk]

theorem parseDatesStep_absent (env : TEnv)
    (h : env.opts.get "parse_dates" = none) :
    parseDatesStep env = (env, none) := by
  simp [parseDatesStep, h, stepOk]

theorem parseDatesStep_none (env : TEnv)
    (h : env.opts.get "parse_dates" = some .vnone) :
    parseDatesStep env = (env, none) := by
  simp [parseDatesStep, h, stepOk]

theorem parseDatesStep_bool (env : TEnv) (b : Bool)
    (h : env.opts.get "parse_dates" = some (.vbool b)) :
    parseDatesStep env =
      ({ env with pk := env.pk.set "try_parse_dates" (.vbool b) }, none) := by
  simp [parseDatesStep, h, stepOk]

theorem parseDatesStep_other (env : TEnv) (v : Val)
    (h : env.opts.get "parse_dates" = some v) (h1 : v ≠ .vnone)
    (h2 : ∀ b : Bool, v ≠ .vbool b) :
    parseDatesStep env =
      (env, some (.unsupportedOption
        ("Polars does not support date parsing with `parse_dates` of specific columns. Use"
          ++ "only boolean `parse_dates` to enable date parsing for all columns."))) := by
  cases v with
  | vnone => exact absurd rfl h1
  | vbool b => exact absurd rfl (h2 b)
  | vint n => simp [parseDatesStep, h, stepErr]
  | vstr s => simp [parseDatesStep, h, stepErr]
  | vlist l => simp [parseDatesStep, h, stepErr]
  | vcallable i => simp [parseDatesStep, h, stepErr]

theorem onBadLinesStep_error (env : TEnv)
    (h : env.opts.getD "on_bad_lines" (.vstr "error") = .vstr "error") :
    onBadLinesStep env =
      ({ env with pk := (env.pk.set "raise_if_empty" (.vbool true)).set "ignore_errors" (.vbool false) },
       none) := by
  simp [onBadLinesStep, h, stepOk]

theorem onBadLinesStep_warnskip (env : TEnv)
    (h : env.opts.getD "on_bad_lines" (.vstr "error") = .vstr "warn" ∨
      env.opts.getD "on_bad_lines" (.vstr "error") = .vstr "skip") :
    onBadLinesStep env =
      ({ env with pk := (env.pk.set "raise_if_empty" (.vbool false)).set "ignore_errors" (.vbool true) },
       none) := by
  have hne : env.opts.getD "on_bad_lines" (.vstr "error") ≠ .vstr "error" := by
    rcases h with h | h <;> rw [h] <;> simp
  simp only [onBadLinesStep, stepOk]
  rw [if_neg hne, if_pos h]

theorem onBadLinesStep_other (env : TEnv)
    (h1 : env.opts.getD "on_bad_lines" (.vstr "error") ≠ .vstr "error")
    (h2 : ¬ (env.opts.getD "on_bad_lines" (.vstr "error") = .vstr "warn" ∨
      env.opts.getD "on_bad_lines" (.vstr "error") = .vstr "skip")) :
    onBadLinesStep env = (env, none) := by
  simp only [onBadLinesStep, stepOk]
  rw [if_neg h1, if_neg h2]

/-! Dispatch lemmas for the decimal block. -/

theorem decimalStep_comma (env : TEnv) (h : env.opts.get "decimal" = some (.vstr ",")) :
    decimalStep env =
      ({ env with pk := env.pk.set "decimal_comma" (.vbool true) }, none) := by
  simp [decimalStep, h, stepOk]

theorem decimalStep_dot (env : TEnv) (h : env.opts.get "decimal" = some (.vstr ".")) :
    decimalStep env =
      ({ env with pk := env.pk.set "decimal_comma" (.vbool false) }, none) := by
  simp [decimalStep, h, stepOk]

theorem decimalStep_other (env : TEnv) (d : Val)
    (h : env.opts.get "decimal" = some d) (h1 : d ≠ .vstr ",") (h2 : d ≠ .vstr ".") :
    decimalStep env =
      (env, some (.unsupportedOption
        ("Polars only supports \x27.\x27 or \x27,\x27 as decimal separator, got \x27"
          ++ pyStr d ++ "\x27"))) := by
  simp [decimalStep, h, h1, h2, stepErr]

/-! Inversion of the run wrapper. -/

theorem translateKwargs_ok_inv (kwds : Dict) (pk : Dict)
    (h : translateKwargs kwds = .ok pk) :
    ∃ envF, translateChain kwds = (envF, none) ∧ envF.pk = pk := by
  unfold translateKwargs translateRun at h
  rcases htc : translateChain kwds with ⟨env, err⟩
  rw [htc] at h
  cases err with
  | none =>
      refine ⟨env, rfl, ?_⟩
      simpa using h
  | some e => simp at h

theorem translateKwargs_err_of_chain (kwds : Dict) (env : TEnv) (e : PipeError)
    (h : translateChain kwds = (env, some e)) :
    translateKwargs kwds = .error e := by
  unfold translateKwargs translateRun
  rw [h]

/-! Congruence: environments agreeing on everything but the `header`
entry are carried in lock-step by every post-header step. -/

theorem seqStep_rel (r1 r2 : StepRes) (f : TEnv → StepRes) (hr : ResRel r1 r2)
    (hf : ∀ a b, EnvRel a b → ResRel (f a) (f b)) :
    ResRel (seqStep r1 f) (seqStep r2 f) := by
  obtain ⟨env1, err1⟩ := r1
  obtain ⟨env2, err2⟩ := r2
  obtain ⟨he, herr⟩ := hr
  simp only at he herr
  subst herr
  cases err1 with
  | none => exact hf env1 env2 he
  | some e => exact ⟨he, rfl⟩

theorem skiprowsStep_rel (e1 e2 : TEnv) (h : EnvRel e1 e2) :
    ResRel (skiprowsStep e1) (skiprowsStep e2) := by
  obtain ⟨hsk, hpk, ho⟩ := h
  cases hv : e1.sk with
  | vint s =>
      rw [skiprowsStep_int e1 s hv, skiprowsStep_int e2 s (hsk.symm.trans hv)]
      exact ⟨⟨hsk, by rw [hpk], ho⟩, rfl⟩
  | vcallable i =>
      rw [skiprowsStep_callable e1 i hv, skiprowsStep_callable e2 i (hsk.symm.trans hv)]
      exact ⟨⟨hsk, hpk, ho⟩, rfl⟩
  | vlist l =>
      have hv2 : e2.sk = .vlist l := hsk.symm.trans hv
      cases l with
      | nil =>
          rw [skiprowsStep_emptyList e1 hv, skiprowsStep_emptyList e2 hv2]
          exact ⟨⟨hsk, by rw [hpk], ho⟩, rfl⟩
      | cons x xs =>
          cases xs with
          | cons y ys =>
              rw [skiprowsStep_badList e1 x y ys hv, skiprowsStep_badList e2 x y ys hv2]
              exact ⟨⟨hsk, hpk, ho⟩, rfl⟩
          | nil =>
              cases x with
              | vint k =>
                  rw [skiprowsStep_single e1 k hv, skiprowsStep_single e2 k hv2]
                  exact ⟨⟨hsk, by rw [hpk], ho⟩, rfl⟩
              | vnone =>
                  rw [skiprowsStep_badSingle e1 _ hv (fun _ => nofun),
                      skiprowsStep_badSingle e2 _ hv2 (fun _ => nofun)]
                  exact ⟨⟨hsk, hpk, ho⟩, rfl⟩
              | vstr s =>
                  rw [skiprowsStep_badSingle e1 _ hv (fun _ => nofun),
                      skiprowsStep_badSingle e2 _ hv2 (fun _ => nofun)]
                  exact ⟨⟨hsk, hpk, ho⟩, rfl⟩
              | vbool b =>
                  rw [skiprowsStep_badSingle e1 _ hv (fun _ => nofun),
                      skiprowsStep_badSingle e2 _ hv2 (fun _ => nofun)]
                  exact ⟨⟨hsk, hpk, ho⟩, rfl⟩
              | vlist zs =>
                  rw [skiprowsStep_badSingle e1 _ hv (fun _ => nofun),
                      skiprowsStep_badSingle e2 _ hv2 (fun _ => nofun)]
                  exact ⟨⟨hsk, hpk, ho⟩, rfl⟩
              | vcallable i =>
                  rw [skiprowsStep_badSingle e1 _ hv (fun _ => nofun),
                      skiprowsStep_badSingle e2 _ hv2 (fun _ => nofun)]
                  exact ⟨⟨hsk, hpk, ho⟩, rfl⟩
  | vnone =>
      rw [skiprowsStep_passNone e1 hv, skiprowsStep_passNone e2 (hsk.symm.trans hv)]
      exact ⟨⟨hsk, hpk, ho⟩, rfl⟩
  | vstr s =>
      rw [skiprowsStep_passStr e1 s hv, skiprowsStep_passStr e2 s (hsk.symm.trans hv)]
      exact ⟨⟨hsk, hpk, ho⟩, rfl⟩
  | vbool b =>
      rw [skiprowsStep_passBool e1 b hv, skiprowsStep_passBool e2 b (hsk.symm.trans hv)]
      exact ⟨⟨hsk, hpk, ho⟩, rfl⟩

theorem usecolsStep_rel (e1 e2 : TEnv) (h : EnvRel e1 e2) :
    ResRel (usecolsStep e1) (usecolsStep e2) := by
  obtain ⟨hsk, hpk, ho⟩ := h
  have hu := ho "usecols" (by decide)
  cases hg : e1.opts.get "usecols" with
  | none =>
      rw [usecolsStep_absent e1 hg, usecolsStep_absent e2 (hu.symm.trans hg)]
      exact ⟨⟨hsk, hpk, ho⟩, rfl⟩
  | some u =>
      have hg2 : e2.opts.get "usecols" = some u := hu.symm.trans hg
      cases u with
      | vcallable i =>
          rw [usecolsStep_callable e1 i hg, usecolsStep_callable e2 i hg2]
          exact ⟨⟨hsk, hpk, ho⟩, rfl⟩
      | vnone =>
          rw [usecolsStep_pass e1 _ hg (fun _ => nofun),
            usecolsStep_pass e2 _ hg2 (fun _ => nofun)]
          exact ⟨⟨hsk, by rw [hpk], ho⟩, rfl⟩
      | vint n =>
          rw [usecolsStep_pass e1 _ hg (fun _ => nofun),
            usecolsStep_pass e2 _ hg2 (fun _ => nofun)]
          exact ⟨⟨hsk, by rw [hpk], ho⟩, rfl⟩
      | vstr s =>
          rw [usecolsStep_pass e1 _ hg (fun _ => nofun),
            usecolsStep_pass e2 _ hg2 (fun _ => nofun)]
          exact ⟨⟨hsk, by rw [hpk], ho⟩, rfl⟩
      | vbool b =>
          rw [usecolsStep_pass e1 _ hg (fun _ => nofun),
            usecolsStep_pass e2 _ hg2 (fun _ => nofun)]
          exact ⟨⟨hsk, by rw [hpk], ho⟩, rfl⟩
      | vlist l =>
          rw [usecolsStep_pass e1 _ hg (fun _ => nofun),
            usecolsStep_pass e2 _ hg2 (fun _ => nofun)]
          exact ⟨⟨hsk, by rw [hpk], ho⟩, rfl⟩

theorem lineterminatorStep_rel (e1 e2 : TEnv) (h : EnvRel e1 e2) :
    ResRel (lineterminatorStep e1) (lineterminatorStep e2) := by
  obtain ⟨hsk, hpk, ho⟩ := h
  have hu := ho "lineterminator" (by decide)
  cases hg : e1.opts.get "lineterminator" with
  | none =>
      rw [lineterminatorStep_absent e1 hg,
        lineterminatorStep_absent e2 (hu.symm.trans hg)]
      exact ⟨⟨hsk, hpk, ho⟩, rfl⟩
  | some v =>
      have hg2 : e2.opts.get "lineterminator" = some v := hu.symm.trans hg
      by_cases hv : v = .vnone
      · subst hv
        rw [lineterminatorStep_none e1 hg, lineterminatorStep_none e2 hg2]
        exact ⟨⟨hsk, hpk, ho⟩, rfl⟩
      · rw [lineterminatorStep_pass e1 v hg hv, lineterminatorStep_pass e2 v hg2 hv]
        exact ⟨⟨hsk, by rw [hpk], ho⟩, rfl⟩

theorem decimalStep_rel (e1 e2 : TEnv) (h : EnvRel e1 e2) :
    ResRel (decimalStep e1) (decimalStep e2) := by
  obtain ⟨hsk, hpk, ho⟩ := h
  have hu := ho "decimal" (by decide)
  cases hg : e1.opts.get "decimal" with
  | none =>
      have hg2 : e2.opts.get "decimal" = none := hu.symm.trans hg
      have r1 : decimalStep e1 = (e1, none) := by simp [decimalStep, hg, stepOk]
      have r2 : decimalStep e2 = (e2, none) := by simp [decimalStep, hg2, stepOk]
      rw [r1, r2]
      exact ⟨⟨hsk, hpk, ho⟩, rfl⟩
  | some d =>
      have hg2 : e2.opts.get "decimal" = some d := hu.symm.trans hg
      by_cases h1 : d = .vstr ","
      · subst h1
        rw [decimalStep_comma e1 hg, decimalStep_comma e2 hg2]
        exact ⟨⟨hsk, by rw [hpk], ho⟩, rfl⟩
      · by_cases h2 : d = .vstr "."
        · subst h2
          rw [decimalStep_dot e1 hg, decimalStep_dot e2 hg2]
          exact ⟨⟨hsk, by rw [hpk], ho⟩, rfl⟩
        · rw [decimalStep_other e1 d hg h1 h2, decimalStep_other e2 d hg2 h1 h2]
          exact ⟨⟨hsk, hpk, ho⟩, rfl⟩

theorem parseDatesStep_rel (e1 e2 : TEnv) (h : EnvRel e1 e2) :
    ResRel (parseDatesStep e1) (parseDatesStep e2) := by
  obtain ⟨hsk, hpk, ho⟩ := h
  have hu := ho "parse_dates" (by decide)
  cases hg : e1.opts.get "parse_dates" with
  | none =>
      rw [parseDatesStep_absent e1 hg, parseDatesStep_absent e2 (hu.symm.trans hg)]
      exact ⟨⟨hsk, hpk, ho⟩, rfl⟩
  | some v =>
      have hg2 : e2.opts.get "parse_dates" = some v := hu.symm.trans hg
      cases v with
      | vnone =>
          rw [parseDatesStep_none e1 hg, parseDatesStep_none e2 hg2]
          exact ⟨⟨hsk, hpk, ho⟩, rfl⟩
      | vbool b =>
          rw [parseDatesStep_bool e1 b hg, parseDatesStep_bool e2 b hg2]
          exact ⟨⟨hsk, by rw [hpk], ho⟩, rfl⟩
      | vint n =>
          rw [parseDatesStep_other e1 _ hg nofun (fun _ => nofun),
            parseDatesStep_other e2 _ hg2 nofun (fun _ => nofun)]
          exact ⟨⟨hsk, hpk, ho⟩, rfl⟩
      | vstr s =>
          rw [parseDatesStep_other e1 _ hg nofun (fun _ => nofun),
            parseDatesStep_other e2 _ hg2 nofun (fun _ => nofun)]
          exact ⟨⟨hsk, hpk, ho⟩, rfl⟩
      | vlist l =>
          rw [parseDatesStep_other e1 _ hg nofun (fun _ => nofun),
            parseDatesStep_other e2 _ hg2 nofun (fun _ => nofun)]
          exact ⟨⟨hsk, hpk, ho⟩, rfl⟩
      | vcallable i =>
          rw [parseDatesStep_other e1 _ hg nofun (fun _ => nofun),
            parseDatesStep_other e2 _ hg2 nofun (fun _ => nofun)]
          exact ⟨⟨hsk, hpk, ho⟩, rfl⟩

theorem onBadLinesStep_rel (e1 e2 : TEnv) (h : EnvRel e1 e2) :
    ResRel (onBadLinesStep e1) (onBadLinesStep e2) := by
  obtain ⟨hsk, hpk, ho⟩ := h
  have hu : e1.opts.getD "on_bad_lines" (.vstr "error") =
      e2.opts.getD "on_bad_lines" (.vstr "error") := by
    unfold Dict.getD
    rw [ho "on_bad_lines" (by decide)]
  by_cases hb : e1.opts.getD "on_bad_lines" (.vstr "error") = .vstr "error"
  · rw [onBadLinesStep_error e1 hb, onBadLinesStep_error e2 (hu.symm.trans hb)]
    exact ⟨⟨hsk, by rw [hpk], ho⟩, rfl⟩
  · by_cases hw : e1.opts.getD "on_bad_lines" (.vstr "error") = .vstr "warn" ∨
        e1.opts.getD "on_bad_lines" (.vstr "error") = .vstr "skip"
    · have hw2 : e2.opts.getD "on_bad_lines" (.vstr "error") = .vstr "warn" ∨
          e2.opts.getD "on_bad_lines" (.vstr "error") = .vstr "skip" := by
        rw [← hu]; exact hw
      rw [onBadLinesStep_warnskip e1 hw, onBadLinesStep_warnskip e2 hw2]
      exact ⟨⟨hsk, by rw [hpk], ho⟩, rfl⟩
    · have hb2 : e2.opts.getD "on_bad_lines" (.vstr "error") ≠ .vstr "error" := by
        rw [← hu]; exact hb
      have hw2 : ¬ (e2.opts.getD "on_bad_lines" (.vstr "error") = .vstr "warn" ∨
          e2.opts.getD "on_bad_lines" (.vstr "error") = .vstr "skip") := by
        rw [← hu]; exact hw
      rw [onBadLinesStep_other e1 hb hw, onBadLinesStep_other e2 hb2 hw2]
      exact ⟨⟨hsk, hpk, ho⟩, rfl⟩

/-! Decomposition of a successful run into its seven steps, and
key-survival across the steps that follow a given one. -/

theorem translateChain_ok_decomp (kwds : Dict) (envF : TEnv)
    (h : translateChain kwds = (envF, none)) :
    ∃ h1 h2 h3 g1 g2 g3,
      headerStep (startEnv kwds) = (h1, none) ∧
      skiprowsStep h1 = (h2, none) ∧
      usecolsStep h2 = (h3, none) ∧
      lineterminatorStep h3 = (g1, none) ∧
      decimalStep g1 = (g2, none) ∧
      parseDatesStep g2 = (g3, none) ∧
      onBadLinesStep g3 = (envF, none) := by
  unfold translateChain at h
  obtain ⟨g3, hC, hOBL⟩ := seqStep_ok_inv _ _ _ h
  obtain ⟨g2, hB, hPD⟩ := seqStep_ok_inv _ _ _ hC
  obtain ⟨g1, hA, hDec⟩ := seqStep_ok_inv _ _ _ hB
  unfold preDecimalRun at hA
  obtain ⟨h3, hP3, hLT⟩ := seqStep_ok_inv _ _ _ hA
  obtain ⟨h2, hP2, hUC⟩ := seqStep_ok_inv _ _ _ hP3
  obtain ⟨h1, hHS, hSR⟩ := seqStep_ok_inv _ _ _ hP2
  exact ⟨h1, h2, h3, g1, g2, g3, hHS, hSR, hUC, hLT, hDec, hPD, hOBL⟩

theorem skip_rows_preserved (h2 h3 g1 g2 g3 envF : TEnv)
    (hUC : usecolsStep h2 = (h3, none))
    (hLT : lineterminatorStep h3 = (g1, none))
    (hDec : decimalStep g1 = (g2, none))
    (hPD : parseDatesStep g2 = (g3, none))
    (hOBL : onBadLinesStep g3 = (envF, none)) :
    envF.pk.get "skip_rows" = h2.pk.get "skip_rows" := by
  have p1 := usecolsStep_pk_get h2 "skip_rows" (by decide)
  rw [hUC] at p1
  have p2 := lineterminatorStep_pk_get h3 "skip_rows" (by decide)
  rw [hLT] at p2
  have p3 := decimalStep_pk_get g1 "skip_rows" (by decide)
  rw [hDec] at p3
  have p4 := parseDatesStep_pk_get g2 "skip_rows" (by decide)
  rw [hPD] at p4
  have p5 := onBadLinesStep_pk_get g3 "skip_rows" (by decide) (by decide)
  rw [hOBL] at p5
  exact p5.trans (p4.trans (p3.trans (p2.trans p1)))

theorem decimal_comma_preserved (g2 g3 envF : TEnv)
    (hPD : parseDatesStep g2 = (g3, none))
    (hOBL : onBadLinesStep g3 = (envF, none)) :
    envF.pk.get "decimal_comma" = g2.pk.get "decimal_comma" := by
  have p4 := parseDatesStep_pk_get g2 "decimal_comma" (by decide)
  rw [hPD] at p4
  have p5 := onBadLinesStep_pk_get g3 "decimal_comma" (by decide) (by decide)
  rw [hOBL] at p5
  exact p5.trans p4

/-- C9: the Option Translator leaves the caller's options record
unchanged — after `_translate_kwargs` returns or raises, the run's
final view of `self.kwds` holds exactly the entries it held before the
call. -/
theorem c9_caller_record_unchanged (kwds : Dict) : (translateRun kwds).2 = kwds := by
  have h := (translateChain_kwds_opts kwds).1
  unfold translateRun
  rcases htc : translateChain kwds with ⟨env, err⟩
  rw [htc] at h
  cases err with
  | none => simpa using h
  | some e => simpa using h

/-- C10: the translator requires the `header` key: on any record
lacking it, `_translate_kwargs` raises `KeyError` (a key-lookup error,
not the `NotImplementedError` used for unsupported options) and
produces no backend record. -/
theorem c10_header_required (kwds : Dict) (h : kwds.member "header" = false) :
    translateKwargs kwds = .error (.keyError "header") := by
  have hg : kwds.get "header" = none := Dict.get_eq_none_of_member_false kwds _ h
  have hh : headerStep (startEnv kwds) = (startEnv kwds, some (.keyError "header")) :=
    headerStep_absent _ hg
  apply translateKwargs_err_of_chain
  unfold translateChain preDecimalRun
  rw [hh]
  rfl

/-- Witness for C10 at the empty options record. -/
theorem c10_witness : translateKwargs ⟨[]⟩ = .error (.keyError "header") :=
  c10_header_required ⟨[]⟩ (by decide)

/-- C6: a `header` list of length greater than one makes the
translator raise the unsupported-option rejection whose message names
the multi-row header form. -/
theorem c6_multirow_header (kwds : Dict) (a b : Val) (t : List Val)
    (h : kwds.get "header" = some (.vlist (a :: b :: t))) :
    translateKwargs kwds =
      .error (.unsupportedOption "Polars does not support multiple header rows") := by
  have hm : headerMultiErr (.vlist (a :: b :: t)) = true := by
    cases a <;> rfl
  have hh := headerStep_multi (startEnv kwds) (a :: b :: t) h hm
  apply translateKwargs_err_of_chain
  unfold translateChain preDecimalRun
  rw [hh]
  rfl

/-- Witness for C6 at `header=[0,1]`. -/
theorem c6_witness :
    translateKwargs ⟨[("header", .vlist [.vint 0, .vint 1])]⟩ =
      .error (.unsupportedOption "Polars does not support multiple header rows") :=
  c6_multirow_header ⟨[("header", .vlist [.vint 0, .vint 1])]⟩ _ _ _ rfl

/-- C4 fails as stated: with a folding header (`header=2`) the
translator overwrites the callable `skiprows` with the folded header
row before the callable check, so no rejection is raised and a backend
record is produced. -/
theorem c4_counterexample :
    kwdsHdr2SkipCall.get "skiprows" = some (.vcallable 0) ∧
      translateKwargs kwdsHdr2SkipCall = .ok pkHdr2 := by
  exact ⟨rfl, rfl⟩

/-- C4 amended: a callable `skiprows` is rejected with the
unsupported-option error whenever the header does not fold (no header
fold replaces the local `skiprows`) and the header itself is not a
rejected multi-row form. -/
theorem c4_amended (kwds : Dict) (i : Nat) (hd : Val)
    (hsk : kwds.get "skiprows" = some (.vcallable i))
    (hh : kwds.get "header" = some hd)
    (hnf : foldOfV hd = none) (hne : headerMultiErr hd = false) :
    translateKwargs kwds =
      .error (.unsupportedOption
        "Polars does not support callable skiprows argument.") := by
  obtain ⟨pkx, hhs⟩ := headerStep_nofold (startEnv kwds) hd hh hnf hne
  have hsk2 : ({ startEnv kwds with
      sk := (startEnv kwds).opts.getD "skiprows" (.vint 0), pk := pkx } : TEnv).sk =
      .vcallable i := by
    simp [startEnv, Dict.getD, hsk]
  have hss := skiprowsStep_callable _ i hsk2
  apply translateKwargs_err_of_chain
  unfold translateChain preDecimalRun
  rw [hhs, seqStep_okStep, hss]
  rfl

/-- Witness for the amended C4 at `header="infer"` with a callable
`skiprows`. -/
theorem c4_witness :
    translateKwargs ⟨[("header", .vstr "infer"), ("skiprows", .vcallable 0)]⟩ =
      .error (.unsupportedOption
        "Polars does not support callable skiprows argument.") :=
  c4_amended ⟨[("header", .vstr "infer"), ("skiprows", .vcallable 0)]⟩ 0
    (.vstr "infer") rfl rfl rfl rfl

/-- C1 fails as stated: for `header=2, skiprows=3` — a combination the
translator accepts — the derived `skip_rows` is 2, the header fold
having replaced the explicit skip count, while the claimed sum is
`3 + 2 = 5`. -/
theorem c1_counterexample :
    translateKwargs kwdsHdr2Skip3 = .ok pkHdr2 ∧
      pkHdr2.get "skip_rows" = some (.vint 2) ∧ (2 : Int) ≠ 3 + 2 := by
  exact ⟨rfl, rfl, by decide⟩

/-- C1 amended: whenever translation succeeds and the record carries a
supported explicit skip count `s`, the backend `skip_rows` equals the
header-fold value when a fold occurs — replacing, not adding to, `s` —
and equals `s` alone otherwise (in particular for `header="infer"` or
`0`, where no fold occurs). -/
theorem c1_amended (kwds pk : Dict) (s : Int)
    (hok : translateKwargs kwds = .ok pk)
    (hs : explicitSkip (kwds.get "skiprows") = some s) :
    pk.get "skip_rows" = some (.vint ((foldOf (kwds.get "header")).getD s)) := by
  obtain ⟨envF, hchain, hpk⟩ := translateKwargs_ok_inv kwds pk hok
  obtain ⟨h1, h2, h3, g1, g2, g3, hHS, hSR, hUC, hLT, hDec, hPD, hOBL⟩ :=
    translateChain_ok_decomp kwds envF hchain
  have hpres := skip_rows_preserved h2 h3 g1 g2 g3 envF hUC hLT hDec hPD hOBL
  subst hpk
  cases hh : kwds.get "header" with
  | none =>
      rw [headerStep_absent (startEnv kwds) hh] at hHS
      exact absurd hHS (by simp)
  | some hd =>
      cases hfold : foldOfV hd with
      | some n =>
          rw [headerStep_fold (startEnv kwds) hd n hh hfold] at hHS
          injection hHS with hh1 hx
          have hs1 : h1.sk = .vint n := by rw [← hh1]
          rw [skiprowsStep_int h1 n hs1] at hSR
          injection hSR with hh2 hy
          have hget : h2.pk.get "skip_rows" = some (.vint n) := by
            rw [← hh2]; exact Dict.get_set_self _ _ _
          rw [hpres, hget]
          simp [foldOf, hfold]
      | none =>
          have hne : headerMultiErr hd = false := by
            cases hmE : headerMultiErr hd
            · rfl
            · exfalso
              cases hd with
              | vlist l =>
                  rw [headerStep_multi (startEnv kwds) l hh hmE] at hHS
                  exact absurd hHS (by simp)
              | vnone => simp [headerMultiErr] at hmE
              | vint n => simp [headerMultiErr] at hmE
              | vstr s2 => simp [headerMultiErr] at hmE
              | vbool b => simp [headerMultiErr] at hmE
              | vcallable i => simp [headerMultiErr] at hmE
          obtain ⟨pkx, hhs⟩ := headerStep_nofold (startEnv kwds) hd hh hfold hne
          rw [hhs] at hHS
          injection hHS with hh1 hx
          have hs1 : h1.sk = Dict.getD kwds "skiprows" (.vint 0) := by
            rw [← hh1]; rfl
          cases hsr : kwds.get "skiprows" with
          | none =>
              have hs0 : (0 : Int) = s := by simpa [explicitSkip, hsr] using hs
              have hsv : h1.sk = .vint 0 := by
                rw [hs1]; simp [Dict.getD, hsr]
              rw [skiprowsStep_int h1 0 hsv] at hSR
              injection hSR with hh2 hy
              have hget : h2.pk.get "skip_rows" = some (.vint 0) := by
                rw [← hh2]; exact Dict.get_set_self _ _ _
              rw [hpres, hget]
              simp [foldOf, hfold, ← hs0]
          | some sv =>
              cases sv with
              | vint k =>
                  have hks : k = s := by simpa [explicitSkip, hsr] using hs
                  have hsv : h1.sk = .vint k := by
                    rw [hs1]; simp [Dict.getD, hsr]
                  rw [skiprowsStep_int h1 k hsv] at hSR
                  injection hSR with hh2 hy
                  have hget : h2.pk.get "skip_rows" = some (.vint k) := by
                    rw [← hh2]; exact Dict.get_set_self _ _ _
                  rw [hpres, hget]
                  simp [foldOf, hfold, hks]
              | vlist l =>
                  cases l with
                  | nil =>
                      have hs0 : (0 : Int) = s := by
                        simpa [explicitSkip, hsr] using hs
                      have hsv : h1.sk = .vlist [] := by
                        rw [hs1]; simp [Dict.getD, hsr]
                      rw [skiprowsStep_emptyList h1 hsv] at hSR
                      injection hSR with hh2 hy
                      have hget : h2.pk.get "skip_rows" = some (.vint 0) := by
                        rw [← hh2]; exact Dict.get_set_self _ _ _
                      rw [hpres, hget]
                      simp [foldOf, hfold, ← hs0]
                  | cons x xs =>
                      cases xs with
                      | cons y ys => exact absurd hs (by simp [explicitSkip, hsr])
                      | nil =>
                          cases x with
                          | vint k =>
                              have hks : k = s := by
                                simpa [explicitSkip, hsr] using hs
                              have hsv : h1.sk = .vlist [.vint k] := by
                                rw [hs1]; simp [Dict.getD, hsr]
                              rw [skiprowsStep_single h1 k hsv] at hSR
                              injection hSR with hh2 hy
                              have hget : h2.pk.get "skip_rows" = some (.vint k) := by
                                rw [← hh2]; exact Dict.get_set_self _ _ _
                              rw [hpres, hget]
                              simp [foldOf, hfold, hks]
                          | vnone => exact absurd hs (by simp [explicitSkip, hsr])
                          | vstr s2 => exact absurd hs (by simp [explicitSkip, hsr])
                          | vbool b => exact absurd hs (by simp [explicitSkip, hsr])
                          | vlist zs => exact absurd hs (by simp [explicitSkip, hsr])
                          | vcallable i => exact absurd hs (by simp [explicitSkip, hsr])
              | vnone => exact absurd hs (by simp [explicitSkip, hsr])
              | vstr s2 => exact absurd hs (by simp [explicitSkip, hsr])
              | vbool b => exact absurd hs (by simp [explicitSkip, hsr])
              | vcallable i => exact absurd hs (by simp [explicitSkip, hsr])

/-- Witness for the amended C1 at `header=2, skiprows=3`: the fold
value 2 replaces the explicit 3. -/
theorem c1_witness :
    pkHdr2.get "skip_rows" =
      some (.vint ((foldOf (kwdsHdr2Skip3.get "header")).getD 3)) :=
  c1_amended kwdsHdr2Skip3 pkHdr2 3 rfl rfl

/-- C7: with a `decimal` entry present, a successful translation can
only have seen `"."` or `","` and sets `decimal_comma` to false
respectively true; any other separator makes the translator raise the
unsupported-option rejection naming it, whenever the blocks before the
decimal check (header, skip-rows, usecols, line terminator) pass. -/
theorem c7_decimal (kwds : Dict) (d : Val) (hd : kwds.get "decimal" = some d) :
    (∀ pk, translateKwargs kwds = .ok pk →
        (d = .vstr "." ∧ pk.get "decimal_comma" = some (.vbool false)) ∨
        (d = .vstr "," ∧ pk.get "decimal_comma" = some (.vbool true))) ∧
    (d ≠ .vstr "." → d ≠ .vstr "," →
      ∀ env, preDecimalRun kwds = (env, none) →
        translateKwargs kwds =
          .error (.unsupportedOption
            ("Polars only supports \x27.\x27 or \x27,\x27 as decimal separator, got \x27"
              ++ pyStr d ++ "\x27"))) := by
  constructor
  · intro pk hok
    obtain ⟨envF, hchain, hpk⟩ := translateKwargs_ok_inv kwds pk hok
    obtain ⟨h1, h2, h3, g1, g2, g3, hHS, hSR, hUC, hLT, hDec, hPD, hOBL⟩ :=
      translateChain_ok_decomp kwds envF hchain
    subst hpk
    have o1 : h1.opts = kwds := by
      have ho := (headerStep_kwds_opts (startEnv kwds)).2
      rw [hHS] at ho; exact ho
    have o2 : h2.opts = kwds := by
      have ho := (skiprowsStep_kwds_opts h1).2
      rw [hSR] at ho; exact ho.trans o1
    have o3 : h3.opts = kwds := by
      have ho := (usecolsStep_kwds_opts h2).2
      rw [hUC] at ho; exact ho.trans o2
    have o4 : g1.opts = kwds := by
      have ho := (lineterminatorStep_kwds_opts h3).2
      rw [hLT] at ho; exact ho.trans o3
    by_cases h1d : d = .vstr "."
    · left
      refine ⟨h1d, ?_⟩
      subst h1d
      have hstep := decimalStep_dot g1 (by rw [o4]; exact hd)
      rw [hstep] at hDec
      injection hDec with hg2 hz
      have hpres := decimal_comma_preserved g2 g3 envF hPD hOBL
      rw [hpres, ← hg2]
      exact Dict.get_set_self _ _ _
    · by_cases h2d : d = .vstr ","
      · right
        refine ⟨h2d, ?_⟩
        subst h2d
        have hstep := decimalStep_comma g1 (by rw [o4]; exact hd)
        rw [hstep] at hDec
        injection hDec with hg2 hz
        have hpres := decimal_comma_preserved g2 g3 envF hPD hOBL
        rw [hpres, ← hg2]
        exact Dict.get_set_self _ _ _
      · exfalso
        have hstep := decimalStep_other g1 d (by rw [o4]; exact hd) h2d h1d
        rw [hstep] at hDec
        exact absurd hDec (by simp)
  · intro hnd hnc env hpre
    have henv : env.opts = kwds := by
      have ho := preDecimalRun_kwds_opts kwds
      rw [hpre] at ho
      exact ho.2
    have hstep := decimalStep_other env d (by rw [henv]; exact hd) hnc hnd
    apply translateKwargs_err_of_chain
    unfold translateChain
    rw [hpre, seqStep_okStep, hstep]
    rfl

/-- Witness for C7 at `decimal="."` (with `header="infer"`): the
produced record carries `decimal_comma = false`. -/
theorem c7_witness :
    (Val.vstr "." = Val.vstr "." ∧
      pkDotDecimal.get "decimal_comma" = some (.vbool false)) ∨
    (Val.vstr "." = Val.vstr "," ∧
      pkDotDecimal.get "decimal_comma" = some (.vbool true)) :=
  (c7_decimal kwdsDotDecimal (.vstr ".") rfl).1 pkDotDecimal rfl

/-- C5: the translator maps `header=[2]` and `header=2` to the same
backend options record, whatever the rest of the options record
holds. -/
theorem c5_header_singleton_list (kwds : Dict) :
    translateKwargs (kwds.set "header" (.vlist [.vint 2])) =
      translateKwargs (kwds.set "header" (.vint 2)) := by
  have h8 : ∀ K, K ≠ "header" →
      (kwds.set "header" (.vlist [.vint 2])).get K =
        (kwds.set "header" (.vint 2)).get K := by
    intro K hk
    rw [Dict.get_set_ne _ _ _ _ hk, Dict.get_set_ne _ _ _ _ hk]
  have hap : applyDirect (kwds.set "header" (.vlist [.vint 2])) ⟨[]⟩ =
      applyDirect (kwds.set "header" (.vint 2)) ⟨[]⟩ := by
    unfold applyDirect pandas_map
    simp only [List.foldl_cons, List.foldl_nil]
    rw [h8 "sep" (by decide), h8 "delimiter" (by decide), h8 "names" (by decide),
      h8 "quotechar" (by decide), h8 "comment" (by decide),
      h8 "storage_options" (by decide), h8 "encoding" (by decide),
      h8 "low_memory" (by decide)]
  have hh1 := headerStep_fold (startEnv (kwds.set "header" (.vlist [.vint 2])))
    (.vlist [.vint 2]) 2 (Dict.get_set_self kwds "header" (.vlist [.vint 2]))
    (by decide)
  have hh2 := headerStep_fold (startEnv (kwds.set "header" (.vint 2)))
    (.vint 2) 2 (Dict.get_set_self kwds "header" (.vint 2)) (by decide)
  have R0 : ResRel
      (headerStep (startEnv (kwds.set "header" (.vlist [.vint 2]))))
      (headerStep (startEnv (kwds.set "header" (.vint 2)))) := by
    rw [hh1, hh2]
    refine ⟨⟨rfl, ?_, ?_⟩, rfl⟩
    · show (applyDirect (kwds.set "header" (.vlist [.vint 2])) ⟨[]⟩).set "has_header" (.vbool true) =
        (applyDirect (kwds.set "header" (.vint 2)) ⟨[]⟩).set "has_header" (.vbool true)
      rw [hap]
    · intro k hk
      exact h8 k hk
  have R1 := seqStep_rel _ _ skiprowsStep R0 skiprowsStep_rel
  have R2 := seqStep_rel _ _ usecolsStep R1 usecolsStep_rel
  have R3 := seqStep_rel _ _ lineterminatorStep R2 lineterminatorStep_rel
  have R4 := seqStep_rel _ _ decimalStep R3 decimalStep_rel
  have R5 := seqStep_rel _ _ parseDatesStep R4 parseDatesStep_rel
  have R6 := seqStep_rel _ _ onBadLinesStep R5 onBadLinesStep_rel
  have R7 : ResRel (translateChain (kwds.set "header" (.vlist [.vint 2])))
      (translateChain (kwds.set "header" (.vint 2))) := R6
  obtain ⟨henv, herr⟩ := R7
  unfold translateKwargs translateRun
  rcases hc1 : translateChain (kwds.set "header" (.vlist [.vint 2])) with ⟨env1, err1⟩
  rcases hc2 : translateChain (kwds.set "header" (.vint 2)) with ⟨env2, err2⟩
  rw [hc1, hc2] at henv herr
  simp only at henv herr
  subst herr
  cases err1 with
  | none =>
      simp only
      exact congrArg (fun pkv => (Except.ok pkv : Except PipeError Dict)) henv.2.1
  | some e => simp only

/-- C2 evaluated: for a headerless 3-column frame with `names=None`,
`index_col=[0]`, `dtype={0: "int64"}`, the first synthesized column is
cast to int64 and promoted to the index, but the index level keeps the
synthesized positional name `0` — it is not cleared to `None` as the
claim (and the source's own "Clear names if headerless and no name
given" comment) require, because the clearing flag is only unset on
the padding path. -/
theorem c2_index_name_not_cleared :
    (finalizePandasOutput frThree stIdxDtype).map
        (fun r => (frameLabels r.1, r.1.index)) =
      .ok ([.vint 1, .vint 2], some [(some (.vint 0), .vstr "int64")]) := by
  rfl

/-- C8: a headerless frame with three backend columns and
`names=["a"]` is relabeled `["0","1","a"]` — the two missing leading
columns are left-padded with stringified positional placeholders — and
with no `index_col` the index stays the default one, so no index-name
clearing is observable. -/
theorem c8_headerless_padding (c0 c1 c2 : Column) :
    finalizePandasOutput { cols := [c0, c1, c2], index := none } stNamesA =
      .ok ({ cols := [{ c0 with label := .vstr "0" },
                      { c1 with label := .vstr "1" },
                      { c2 with label := .vstr "a" }], index := none },
           { stNamesA with names := some [.vstr "0", .vstr "1", .vstr "a"] }) := by
  have hpref : List.map (fun i => Val.vstr (toString i)) (List.range 2) =
      [Val.vstr "0", Val.vstr "1"] := rfl
  simp [finalizePandasOutput, doDateConversions, frameLabels, stNamesA, hpref]
  rfl

/-- C3 fails as stated: the `try` in `read` spans the whole pipeline,
so the translator's own `NotImplementedError` (here: the unsupported
decimal separator) is also caught and re-wrapped into `ParserError`
instead of propagating unwrapped. -/
theorem c3_counterexample :
    translateKwargs kwdsBadDecimal = .error (.unsupportedOption badDecimalMsg) ∧
      read bkEmpty stTriv kwdsBadDecimal none =
        .error (.parserError ("Polars CSV parser error: " ++ badDecimalMsg)) ∧
      read bkEmpty stTriv kwdsBadDecimal none ≠
        .error (.unsupportedOption badDecimalMsg) := by
  refine ⟨rfl, rfl, ?_⟩
  intro h
  exact PipeError.noConfusion (Except.error.inj h)

/-- C3 amended: `read` is the single catch point, and it re-wraps
every exception escaping the pipeline — whether raised by the
translator, the backend capability, or the normalizer — into
`ParserError` carrying the original message. -/
theorem c3_amended (backend : Dict → Except PipeError Frame) (st : SelfState)
    (kwds : Dict) (nrows : Option Int) :
    (∀ e, translateKwargs kwds = .error e →
        read backend st kwds nrows =
          .error (.parserError ("Polars CSV parser error: " ++ errStr e))) ∧
    (∀ pk e, translateKwargs kwds = .ok pk →
        backend (applyNrows pk nrows) = .error e →
        read backend st kwds nrows =
          .error (.parserError ("Polars CSV parser error: " ++ errStr e))) ∧
    (∀ pk frame e, translateKwargs kwds = .ok pk →
        backend (applyNrows pk nrows) = .ok frame →
        finalizePandasOutput frame st = .error e →
        read backend st kwds nrows =
          .error (.parserError ("Polars CSV parser error: " ++ errStr e))) := by
  refine ⟨?_, ?_, ?_⟩
  · intro e ht
    have hr : readCsvWithPolars backend st kwds nrows = .error e := by
      unfold readCsvWithPolars
      rw [ht]
      rfl
    unfold read
    rw [hr]
  · intro pk e ht hb
    have hr : readCsvWithPolars backend st kwds nrows = .error e := by
      unfold readCsvWithPolars
      rw [ht]
      show Except.bind (backend (applyNrows pk nrows)) _ = .error e
      rw [hb]
      rfl
    unfold read
    rw [hr]
  · intro pk frame e ht hb hf
    have hr : readCsvWithPolars backend st kwds nrows = .error e := by
      unfold readCsvWithPolars
      rw [ht]
      show Except.bind (backend (applyNrows pk nrows)) _ = .error e
      rw [hb]
      show Except.bind (finalizePandasOutput frame st) _ = .error e
      rw [hf]
      rfl
    unfold read
    rw [hr]

end Polars
